import Mathlib

set_option linter.unusedVariables false

/-!
# Verification of the slang semantic core against its specification

This file gives a shallow embedding, in Lean 4, of the parts of the slang
SystemVerilog front-end that the specification's claims are about:

* `CallExpression::checkConstant`, `CallExpression::evalImpl`,
  `CallExpression::verifyConstantImpl` and `CallExpression::fromArgs`
  (source/binding/MiscExpressions.cpp);
* `MinTypMaxExpression` binding and evaluation (same file);
* `HierarchicalValueExpression` constant verification and evaluation (same file);
* `Type::getCanonicalType` (include/slang/symbols/Type.h);
* `ExplicitImportSymbol::importedSymbol` and `SubroutineSymbol::fromSyntax`
  (source/symbols/MemberSymbols.cpp).

Machine pointers become `Nat` identifiers, the arena is implicit, and the
diagnostic sink is an explicit list threaded through every operation.  Each
definition is translated from the C++ source; the few places where the body of
a function is not part of the excerpt are modelled from the specification and
say so in their doc comment.
-/

namespace Slang

/-- Diagnostic codes used by the modelled operations.  Each constructor
corresponds to one `diag::...` code in the C++ sources. -/
inductive DiagCode where
  | NotAValue
  | ConstEvalTaskNotConstant
  | ConstEvalDPINotConstant
  | ConstEvalMethodNotConstant
  | ConstEvalSubroutineNotConstant
  | ConstEvalVoidNotConstant
  | ConstEvalFunctionArgDirection
  | ConstEvalFunctionInsideGenerate
  | ConstEvalDisableTarget
  | ConstEvalHierarchicalNameInCE
  | MixingOrderedAndNamedArgs
  | DuplicateArgAssignment
  | ArgCannotBeEmpty
  | TooFewArguments
  | TooManyArguments
  | UnconnectedArg
  | ArgDoesNotExist
  deriving DecidableEq, Repr

/-- A diagnostic: a code plus the numeric operands streamed into it with
`operator<<` (only the numeric ones matter for the claims, e.g. the
expected/actual counts of `TooFewArguments`). -/
structure Diag where
  code : DiagCode
  nums : List Nat
  deriving DecidableEq, Repr

/-- `SubroutineKind` from the C++ sources: a subroutine is a function or a task. -/
inductive SubroutineKind where
  | Function
  | Task
  deriving DecidableEq, Repr

/-- `ArgumentDirection` / `FormalArgumentDirection` from the C++ sources. -/
inductive ArgDirection where
  | In
  | Out
  | InOut
  | Ref
  | ConstRef
  deriving DecidableEq, Repr

/-- The `MethodFlags` bitmask, one Boolean per bit that `checkConstant` reads. -/
structure MethodFlags where
  isVirtual : Bool
  isPure : Bool
  isCtor : Bool
  isDpiImport : Bool
  isStatic : Bool
  notConst : Bool
  deriving DecidableEq, Repr

/-- The kinds of symbols that can own a scope, as far as the claims need them.
`checkConstant` only tests whether the parent scope is a `GenerateBlock`. -/
inductive SymbolKind where
  | GenerateBlock
  | Module
  | Package
  | ClassType
  | StatementBlock
  | CompilationUnit
  deriving DecidableEq, Repr

/-- A formal argument of a subroutine: its symbol identity and direction. -/
structure FormalArg where
  id : Nat
  direction : ArgDirection
  deriving DecidableEq, Repr

/-- The slice of `SubroutineSymbol` that `checkConstant` and `evalImpl` read:
subroutine kind, method flags, whether the return type is `void`, the formal
argument list, the identity of the synthesized return-value variable
(`returnValVar`), and the kind of the parent scope's symbol. -/
structure SubroutineSymbol where
  subroutineKind : SubroutineKind
  flags : MethodFlags
  returnTypeIsVoid : Bool
  formals : List FormalArg
  returnValVar : Nat
  parentScopeKind : SymbolKind
  deriving DecidableEq, Repr

/-- The `minTypMax` compilation option: which branch of a min/typ/max
expression is the evaluated one. -/
inductive MinTypMax where
  | Min
  | Typ
  | Max
  deriving DecidableEq, Repr

/-- The compilation options the claims mention. -/
structure CompilationOptions where
  minTypMax : MinTypMax
  allowHierarchicalConst : Bool
  deriving DecidableEq, Repr

/-- Constant values are abstracted to integers; `Option ConstVal` stands for
`ConstantValue`, with `none` playing the role of the `bad`/`nullptr` value. -/
abbrev ConstVal := Int

/-- A call frame of the constant evaluator: the mutable locals map
(`Symbol* -> ConstantValue`), keyed by symbol identity. -/
structure Frame where
  locals : List (Nat × ConstVal)
  deriving DecidableEq, Repr

/-- The slice of `EvalContext` the claims need: the compilation options, the
`scriptEval` flag, the recursion-depth limit, the frame stack, and the
diagnostic sink.  Each recorded diagnostic carries the number of frames that
were on the stack when it was issued, so that "emitted before the frame was
popped" is an observable fact. -/
structure EvalContext where
  options : CompilationOptions
  scriptEval : Bool
  maxDepth : Nat
  frames : List Frame
  diags : List (Diag × Nat)
  deriving DecidableEq, Repr

/-- `EvalContext::addDiag`: append a diagnostic, recording the current frame
depth alongside it. -/
def EvalContext.addDiag (ctx : EvalContext) (d : Diag) : EvalContext :=
  { ctx with diags := ctx.diags ++ [(d, ctx.frames.length)] }

/-- `EvalContext::pushFrame`.  Modelled from the spec: the body of
`EvalContext::pushFrame` is not part of the excerpt; the spec gives the
`EvalContext` "a recursion-depth counter and configurable limit"
(`maxRecursionDepth`), so pushing fails once the stack has reached the limit. -/
def EvalContext.pushFrame (ctx : EvalContext) (f : Frame) : Option EvalContext :=
  if ctx.frames.length ≥ ctx.maxDepth then none
  else some { ctx with frames := f :: ctx.frames }

/-- `EvalContext::popFrame`: drop the top frame. -/
def EvalContext.popFrame (ctx : EvalContext) : EvalContext :=
  { ctx with frames := ctx.frames.tail }

/-- `EvalContext::findLocal`: look a symbol up in the top frame's locals. -/
def EvalContext.findLocal (ctx : EvalContext) (id : Nat) : Option ConstVal :=
  match ctx.frames with
  | [] => none
  | f :: _ => (f.locals.find? (fun p => p.fst == id)).map Prod.snd

/-- `CallExpression::checkConstant` (MiscExpressions.cpp, lines 778-823):
the gate that rejects subroutines that may not appear in a constant context.
The checks run in source order; the first failing one issues its diagnostic
and the function returns `false`.  The loop over the formal arguments returns
at the first argument whose direction is not `In`, which is observably the
same as testing whether any direction differs from `In`. -/
def checkConstant (ctx : EvalContext) (s : SubroutineSymbol) : Bool × EvalContext :=
  if ctx.scriptEval then (true, ctx)
  else if s.subroutineKind = SubroutineKind.Task then
    (false, EvalContext.addDiag ctx ⟨DiagCode.ConstEvalTaskNotConstant, []⟩)
  else if s.flags.isDpiImport then
    (false, EvalContext.addDiag ctx ⟨DiagCode.ConstEvalDPINotConstant, []⟩)
  else if s.flags.isVirtual || s.flags.isPure || s.flags.isCtor then
    (false, EvalContext.addDiag ctx ⟨DiagCode.ConstEvalMethodNotConstant, []⟩)
  else if s.flags.notConst then
    (false, EvalContext.addDiag ctx ⟨DiagCode.ConstEvalSubroutineNotConstant, []⟩)
  else if s.returnTypeIsVoid then
    (false, EvalContext.addDiag ctx ⟨DiagCode.ConstEvalVoidNotConstant, []⟩)
  else if s.formals.any (fun a => a.direction != ArgDirection.In) then
    (false, EvalContext.addDiag ctx ⟨DiagCode.ConstEvalFunctionArgDirection, []⟩)
  else if s.parentScopeKind = SymbolKind.GenerateBlock then
    (false, EvalContext.addDiag ctx ⟨DiagCode.ConstEvalFunctionInsideGenerate, []⟩)
  else (true, ctx)

/-- The failure condition exactly as claim C1 words it: task, DPI import,
virtual/pure/constructor method, void return, a formal whose direction is not
`in`, or declaration inside a generate block.  This is the claim's list, kept
separate from the source translation so the two can be compared. -/
def claimC1FailureCondition (s : SubroutineSymbol) : Prop :=
  s.subroutineKind = SubroutineKind.Task ∨
  s.flags.isDpiImport = true ∨
  s.flags.isVirtual = true ∨ s.flags.isPure = true ∨ s.flags.isCtor = true ∨
  s.returnTypeIsVoid = true ∨
  (∃ a ∈ s.formals, a.direction ≠ ArgDirection.In) ∨
  s.parentScopeKind = SymbolKind.GenerateBlock

instance (s : SubroutineSymbol) : Decidable (claimC1FailureCondition s) := by
  unfold claimC1FailureCondition
  exact inferInstance

/-- The failure condition as the code actually has it: the claim's list plus
the `MethodFlags::NotConst` flag. -/
def amendedC1FailureCondition (s : SubroutineSymbol) : Prop :=
  claimC1FailureCondition s ∨ s.flags.notConst = true

instance (s : SubroutineSymbol) : Decidable (amendedC1FailureCondition s) := by
  unfold amendedC1FailureCondition
  exact inferInstance

/-- The type model for claim C7.  A `Ty` is either a concrete type or a type
alias wrapping a target type (`TypeAliasSymbol`); the concrete payloads are cut
down to what distinguishes type kinds.  In the C++ source (Type.h), every
`Type` carries a `canonical` pointer initialized to `this` by the constructor. -/
inductive Ty where
  | integral (width : Nat) (signed : Bool) (fourState : Bool)
  | floating
  | stringTy
  | voidTy
  | classTy (id : Nat)
  | errorTy
  | aliasTy (name : String) (target : Ty)
  deriving DecidableEq, Repr

/-- `Type::isAlias` (Type.h): true only for `TypeAlias`, without unwrapping. -/
def Ty.isAlias : Ty → Bool
  | Ty.aliasTy _ _ => true
  | _ => false

/-- `Type::getCanonicalType` (Type.h, lines 51-56).  Modelled from the spec:
the body of the private `resolveCanonical` is not part of the excerpt; Type.h
documents that `canonical` "in the case of most types points to itself and for
type aliases points to the fully unwrapped target type", and the spec says
"type aliases forward to their target's canonical; everything else points to
itself". -/
def Ty.getCanonicalType : Ty → Ty
  | Ty.aliasTy _ target => Ty.getCanonicalType target
  | t => t

/-- A package symbol as `ExplicitImportSymbol` sees it: a name plus the
name-to-symbol member map (symbols abstracted to identifiers). -/
structure PackageSymbol where
  pkgName : String
  members : List (String × Nat)
  deriving DecidableEq, Repr

/-- The design root's package namespace (`DesignRootSymbol`). -/
structure DesignRoot where
  packages : List PackageSymbol
  deriving DecidableEq, Repr

/-- `DesignRootSymbol::findPackage`: find a package by name, or null. -/
def DesignRoot.findPackage (root : DesignRoot) (name : String) : Option PackageSymbol :=
  root.packages.find? (fun p => p.pkgName == name)

/-- `lookupDirect` on a package: direct member lookup with no parent walk. -/
def PackageSymbol.lookupDirect (p : PackageSymbol) (name : String) : Option Nat :=
  (p.members.find? (fun m => m.fst == name)).map Prod.snd

/-- The mutable state of an `ExplicitImportSymbol` (MemberSymbols.cpp):
the two names from the syntax, the `initialized` flag (here `resolved`), and
the cached `package_` and `import` pointers. -/
structure ExplicitImportSymbol where
  packageName : String
  importName : String
  resolved : Bool
  packageCache : Option PackageSymbol
  importCache : Option Nat
  deriving DecidableEq, Repr

/-- `ExplicitImportSymbol::importedSymbol` (MemberSymbols.cpp, lines 57-67).
On the first access it resolves the package and then the name, caches both
results and sets the `initialized` flag; afterwards it returns the cache.
The function returns the looked-up symbol, the updated symbol state, and the
diagnostics it issued — which are always none: the C++ body has a
`// TODO: errors` comment in place of error reporting, so resolution failure
produces a silent null, not a diagnostic. -/
def importedSymbolImpl (root : DesignRoot) (s : ExplicitImportSymbol) :
    Option Nat × ExplicitImportSymbol × List Diag :=
  if s.resolved then (s.importCache, s, [])
  else
    let pkg := DesignRoot.findPackage root s.packageName
    let imp :=
      match pkg with
      | some p => PackageSymbol.lookupDirect p s.importName
      | none => none
    (imp, { s with resolved := true, packageCache := pkg, importCache := imp }, [])

/-- `Statement::EvalResult`: the status a statement evaluation propagates. -/
inductive EvalResult where
  | Success
  | Return
  | Fail
  | Disable
  | Break
  | Continue
  deriving DecidableEq, Repr

/-- The frame that `CallExpression::evalImpl` pushes for a call: the formals
bound in declaration order to the evaluated argument values, plus the
return-value local (`returnValVar`), created without a value — modelled as the
default value 0 of the abstracted value domain. -/
def callFrame (s : SubroutineSymbol) (vals : List ConstVal) : Frame :=
  ⟨(s.formals.map FormalArg.id).zip vals ++ [(s.returnValVar, 0)]⟩

/-- The argument-evaluation loop of `CallExpression::evalImpl`: evaluate each
argument in the caller's frame, stopping at the first one that evaluates to
the bad value.  Each argument is an evaluation function on the context (its
bound expression abstracted to its evaluation behaviour). -/
def evalArgs : List (EvalContext → Option ConstVal × EvalContext) → EvalContext →
    Option (List ConstVal) × EvalContext
  | [], ctx => (some [], ctx)
  | a :: rest, ctx =>
    match a ctx with
    | (none, c1) => (none, c1)
    | (some v, c1) =>
      match evalArgs rest c1 with
      | (none, c2) => (none, c2)
      | (some vs, c2) => (some (v :: vs), c2)

/-- `CallExpression::evalImpl` (MiscExpressions.cpp, lines 686-739), for a
call to a user-defined subroutine (the system-call branch delegates to the
system subroutine's own handler and is outside the claims).  The callee's
bound body is abstracted to its statement-evaluation behaviour `body`, a
function from the context (with the call frame pushed) to the propagated
`EvalResult` and the mutated context.  Mirrors the source: check constant-ness,
fail silently on a `thisClass`, evaluate the arguments, push the frame with
the argument locals and the return-value local, run the body, report a
`Disable` result as `ConstEvalDisableTarget` *before* popping the frame, read
the return-value local, pop, and produce bad exactly on `Fail`/`Disable`. -/
def evalCallExpr (s : SubroutineSymbol) (hasThisClass : Bool)
    (args : List (EvalContext → Option ConstVal × EvalContext))
    (body : EvalContext → EvalResult × EvalContext)
    (ctx : EvalContext) : Option ConstVal × EvalContext :=
  match checkConstant ctx s with
  | (false, c1) => (none, c1)
  | (true, c1) =>
    if hasThisClass then (none, c1)
    else
      match evalArgs args c1 with
      | (none, c2) => (none, c2)
      | (some vals, c2) =>
        match EvalContext.pushFrame c2 (callFrame s vals) with
        | none => (none, c2)
        | some c3 =>
          let bodyOut := body c3
          let c5 :=
            if bodyOut.fst = EvalResult.Disable then
              EvalContext.addDiag bodyOut.snd ⟨DiagCode.ConstEvalDisableTarget, []⟩
            else bodyOut.snd
          let result := EvalContext.findLocal c5 s.returnValVar
          let c6 := EvalContext.popFrame c5
          if bodyOut.fst = EvalResult.Fail ∨ bodyOut.fst = EvalResult.Disable then (none, c6)
          else (result, c6)

/-- A bound expression as the min/typ/max claims need it: the
`UnevaluatedBranch` bind flag it was created with, its type, whether it is
bad, and its constant-evaluation outcome. -/
structure BoundExpr where
  unevaluatedBranch : Bool
  ty : Ty
  bad : Bool
  val : Option ConstVal
  deriving DecidableEq, Repr

/-- The three sub-expressions of a `MinTypMaxExpressionSyntax`, as syntax
node identifiers. -/
structure MinTypMaxSyn where
  minSyn : Nat
  typSyn : Nat
  maxSyn : Nat
  deriving DecidableEq, Repr

/-- The bound `MinTypMaxExpression`: the three bound sub-expressions, the
selected one, the expression's type, and badness. -/
structure MinTypMaxExpression where
  minExpr : BoundExpr
  typExpr : BoundExpr
  maxExpr : BoundExpr
  selected : BoundExpr
  ty : Ty
  isBad : Bool
  deriving DecidableEq, Repr

/-- `MinTypMaxExpression::fromSyntax` (MiscExpressions.cpp, lines 908-951).
`create` abstracts `Expression::create`: it binds a syntax node under a given
`UnevaluatedBranch` flag.  All three sub-expressions are bound; each branch's
flag defaults to `UnevaluatedBranch` and the one selected by the compilation's
`minTypMax` option is bound with no flags; the selected branch also provides
the expression's type, and the result is bad if any branch is bad. -/
def bindMinTypMax (opts : CompilationOptions) (create : Nat → Bool → BoundExpr)
    (syn : MinTypMaxSyn) : MinTypMaxExpression :=
  let minE := create syn.minSyn (opts.minTypMax != MinTypMax.Min)
  let typE := create syn.typSyn (opts.minTypMax != MinTypMax.Typ)
  let maxE := create syn.maxSyn (opts.minTypMax != MinTypMax.Max)
  let selected :=
    match opts.minTypMax with
    | MinTypMax.Min => minE
    | MinTypMax.Typ => typE
    | MinTypMax.Max => maxE
  { minExpr := minE, typExpr := typE, maxExpr := maxE, selected := selected,
    ty := selected.ty, isBad := minE.bad || typE.bad || maxE.bad }

/-- `MinTypMaxExpression::evalImpl` (MiscExpressions.cpp, lines 960-962):
evaluate the selected expression. -/
def minTypMaxEval (e : MinTypMaxExpression) : Option ConstVal :=
  e.selected.val

/-- An element of an `ArgumentListSyntax`: an ordered argument carrying an
expression, an empty (positional) argument, or a named argument `.name(expr)`
whose expression may be absent (`.name()`).  The name is the token's
`valueText`, which is the empty string for a missing or error-recovered
identifier. -/
inductive ArgSyn where
  | ordered (e : Nat)
  | emptyArg
  | named (name : String) (e : Option Nat)
  deriving DecidableEq, Repr

/-- Whether an argument is positional (ordered or empty), i.e. lands in the
`orderedArgs` list of `CallExpression::fromArgs`. -/
def ArgSyn.isPositional : ArgSyn → Bool
  | ArgSyn.ordered _ => true
  | ArgSyn.emptyArg => true
  | ArgSyn.named _ _ => false

/-- A formal argument as `fromArgs` consumes it: its name and its optional
default initializer (`getInitializer`), as a bound-expression identifier.
Binding an actual argument against the formal's type/direction/constness is
abstracted to the identity on expression identifiers, with a separate
predicate telling which bound expressions are bad. -/
structure FormalSpec where
  name : String
  defaultInit : Option Nat
  deriving DecidableEq, Repr

/-- Result of the argument-collection loop at the top of `fromArgs`: either an
immediate bad expression (mixing ordered and named), or the `orderedArgs` list
(`none` = empty argument), the `namedArgs` map in insertion order (name,
expression, used flag), and the diagnostics so far. -/
inductive CollectResult where
  | earlyBad (diags : List Diag)
  | collected (ordered : List (Option Nat)) (named : List (String × Option Nat × Bool))
      (diags : List Diag)
  deriving DecidableEq, Repr

/-- The collection loop of `CallExpression::fromArgs` (MiscExpressions.cpp,
lines 358-391).  Named arguments with a non-empty name are put into the named
map, diagnosing duplicates (and keeping the first); named arguments whose name
token has empty text are skipped entirely.  An ordered or empty argument that
appears once the named map is non-empty produces `MixingOrderedAndNamedArgs`
and the whole call becomes an immediate bad expression. -/
def collectArgs : List ArgSyn → List (Option Nat) → List (String × Option Nat × Bool) →
    List Diag → CollectResult
  | [], ord, named, ds => CollectResult.collected ord named ds
  | ArgSyn.named n e :: rest, ord, named, ds =>
    if n = "" then collectArgs rest ord named ds
    else if (named.find? (fun p => p.fst == n)).isSome then
      collectArgs rest ord named (ds ++ [⟨DiagCode.DuplicateArgAssignment, []⟩])
    else collectArgs rest ord (named ++ [(n, e, false)]) ds
  | ArgSyn.ordered e :: rest, ord, named, ds =>
    if named.isEmpty then collectArgs rest (ord ++ [some e]) named ds
    else CollectResult.earlyBad (ds ++ [⟨DiagCode.MixingOrderedAndNamedArgs, []⟩])
  | ArgSyn.emptyArg :: rest, ord, named, ds =>
    if named.isEmpty then collectArgs rest (ord ++ [none]) named ds
    else CollectResult.earlyBad (ds ++ [⟨DiagCode.MixingOrderedAndNamedArgs, []⟩])

/-- Find a named-argument entry by name. -/
def lookupNamed (named : List (String × Option Nat × Bool)) (n : String) :
    Option (Option Nat × Bool) :=
  (named.find? (fun p => p.fst == n)).map Prod.snd

/-- Mark a named-argument entry as used (`it->second.second = true`). -/
def markUsed (named : List (String × Option Nat × Bool)) (n : String) :
    List (String × Option Nat × Bool) :=
  named.map (fun p => if p.fst == n then (p.fst, p.snd.fst, true) else p)

/-- The running state of the per-formal binding loop of `fromArgs`: the named
map with its used flags, the diagnostics, the `bad` flag, and the bound
argument expressions accumulated so far. -/
structure BindState where
  named : List (String × Option Nat × Bool)
  diags : List Diag
  bad : Bool
  bound : List Nat
  deriving DecidableEq, Repr

/-- The tail of each iteration of the formal loop: a null expression makes the
call bad; otherwise the expression's badness is ORed in and it is appended to
the bound arguments. -/
def recordExpr (exprBad : Nat → Bool) (expr : Option Nat) (st : BindState) : BindState :=
  match expr with
  | none => { st with bad := true }
  | some e => { st with bad := st.bad || exprBad e, bound := st.bound ++ [e] }

/-- The per-formal binding loop of `CallExpression::fromArgs` (MiscExpressions
.cpp, lines 393-466).  For each formal: consume the next ordered argument if
one remains (an empty one needs a default; a named argument for the same
formal is a diagnosed duplicate); otherwise use a named argument, marking it
used; otherwise fall back to the default initializer, and failing that issue
`TooFewArguments` (with the formal count and ordered-argument count) and break
when no named arguments were given, or `UnconnectedArg` when some were.
Returns the final state and the unconsumed ordered arguments. -/
def processFormals (exprBad : Nat → Bool) (total nOrdered : Nat) :
    List FormalSpec → List (Option Nat) → BindState → BindState × List (Option Nat)
  | [], ordRem, st => (st, ordRem)
  | f :: rest, oa :: ordRest, st =>
    let exprSt : Option Nat × BindState :=
      match oa with
      | none =>
        match f.defaultInit with
        | some e => (some e, st)
        | none => (none, { st with diags := st.diags ++ [⟨DiagCode.ArgCannotBeEmpty, []⟩] })
      | some e => (some e, st)
    let st2 :=
      if (lookupNamed exprSt.snd.named f.name).isSome then
        { exprSt.snd with diags := exprSt.snd.diags ++ [⟨DiagCode.DuplicateArgAssignment, []⟩],
                          named := markUsed exprSt.snd.named f.name, bad := true }
      else exprSt.snd
    processFormals exprBad total nOrdered rest ordRest (recordExpr exprBad exprSt.fst st2)
  | f :: rest, [], st =>
    match lookupNamed st.named f.name with
    | some entry =>
      let stM := { st with named := markUsed st.named f.name }
      let exprSt : Option Nat × BindState :=
        match entry.fst with
        | none =>
          match f.defaultInit with
          | some e => (some e, stM)
          | none => (none, { stM with diags := stM.diags ++ [⟨DiagCode.ArgCannotBeEmpty, []⟩] })
        | some e => (some e, stM)
      processFormals exprBad total nOrdered rest [] (recordExpr exprBad exprSt.fst exprSt.snd)
    | none =>
      match f.defaultInit with
      | some e => processFormals exprBad total nOrdered rest [] (recordExpr exprBad (some e) st)
      | none =>
        if st.named.isEmpty then
          ({ st with diags := st.diags ++ [⟨DiagCode.TooFewArguments, [total, nOrdered]⟩],
                     bad := true }, [])
        else
          processFormals exprBad total nOrdered rest []
            (recordExpr exprBad none
              { st with diags := st.diags ++ [⟨DiagCode.UnconnectedArg, []⟩] })

/-- The trailing loop of `fromArgs` over the named map: every entry never
marked used is an argument assignment for a non-existent formal. -/
def unusedNamedDiags : List (String × Option Nat × Bool) → List Diag
  | [] => []
  | (_, _, used) :: rest =>
    (if used then [] else [⟨DiagCode.ArgDoesNotExist, []⟩]) ++ unusedNamedDiags rest

/-- The observable outcome of `CallExpression::fromArgs`: the diagnostics, the
badness of the resulting call expression, and the bound argument list. -/
structure CallResult where
  diags : List Diag
  isBad : Bool
  bound : List Nat
  deriving DecidableEq, Repr

/-- `CallExpression::fromArgs` (MiscExpressions.cpp, lines 351-494): collect
the arguments, bind them against the formals, diagnose surplus ordered
arguments (`TooManyArguments`) and unused named arguments (`ArgDoesNotExist`),
and produce a bad expression if anything went wrong. -/
def fromArgs (exprBad : Nat → Bool) (formals : List FormalSpec)
    (args : Option (List ArgSyn)) : CallResult :=
  match collectArgs (args.getD []) [] [] [] with
  | CollectResult.earlyBad ds => ⟨ds, true, []⟩
  | CollectResult.collected ord named ds =>
    let stOut := processFormals exprBad formals.length ord.length formals ord ⟨named, ds, false, []⟩
    let st2 :=
      if stOut.snd.isEmpty then stOut.fst
      else { stOut.fst with
               diags := stOut.fst.diags ++ [⟨DiagCode.TooManyArguments, [formals.length, ord.length]⟩],
               bad := true }
    ⟨st2.diags ++ unusedNamedDiags st2.named,
      st2.bad || st2.named.any (fun p => !p.snd.snd),
      st2.bound⟩

/-- The syntax node that the `minTypMax` option selects, used to state C5. -/
def selectedSyn (opts : CompilationOptions) (syn : MinTypMaxSyn) : Nat :=
  match opts.minTypMax with
  | MinTypMax.Min => syn.minSyn
  | MinTypMax.Typ => syn.typSyn
  | MinTypMax.Max => syn.maxSyn

/-- The call-expression graph that `CallExpression::verifyConstantImpl` walks
for claim C9.  The bound expression tree of a compilation contains a finite
set of `CallExpression` nodes, here `Fin n`; for each node, `check` abstracts
the outcome of everything `verifyConstantImpl` does before the `inRecursion`
guard (verifying `thisClass` and the arguments, and `checkConstant` on the
callee), and `body` lists the call-expression nodes reached when the callee's
bound body is verified.  A subroutine's bound body is cached and shared by
every call site, so a recursive function's body reaches the very node being
verified — `body` may mention any node, including the one it belongs to. -/
structure VerifyProgram (n : Nat) where
  check : Fin n → Bool
  body : Fin n → List (Fin n)

mutual

/-- `CallExpression::verifyConstantImpl` (MiscExpressions.cpp, lines 741-776)
restricted to what the claim is about.  `visited` is the set of call
expressions whose `inRecursion` flag is currently set, i.e. the nodes on the
verification stack: the C++ sets the member flag on entry and a `ScopeGuard`
clears it on exit, which is exactly a set threaded downward.  If the
pre-checks fail the result is `false`; if the node is already being verified
the guard returns `true` immediately; otherwise the node is marked and the
callee's body is verified. -/
def verifyCall {n : Nat} (P : VerifyProgram n) (visited : Finset (Fin n)) (e : Fin n) : Bool :=
  if P.check e = false then false
  else if he : e ∈ visited then true
  else verifyBody P (insert e visited) (P.body e)
termination_by (n - visited.card, 0)
decreasing_by
  apply Prod.Lex.left
  have h1 : (insert e visited).card = visited.card + 1 := Finset.card_insert_of_not_mem he
  have h2 : (insert e visited).card ≤ n := by
    simpa using Finset.card_le_univ (insert e visited)
  omega

/-- Verification of a subroutine body: verify each call expression it
contains, all of them against the same stack of in-recursion nodes. -/
def verifyBody {n : Nat} (P : VerifyProgram n) (visited : Finset (Fin n)) :
    List (Fin n) → Bool
  | [] => true
  | b :: rest => verifyCall P visited b && verifyBody P visited rest
termination_by l => (n - visited.card, l.length + 1)
decreasing_by
  · apply Prod.Lex.right
    simp only [List.length_cons]
    omega
  · apply Prod.Lex.right
    simp only [List.length_cons]
    omega

end

/-- `HierarchicalValueExpression::verifyConstantImpl` (MiscExpressions.cpp,
lines 253-256): unconditionally issue `ConstEvalHierarchicalNameInCE` and
fail.  Note that nothing in the body consults the context or the compilation
options. -/
def hierVerifyConstant (ctx : EvalContext) : Bool × EvalContext :=
  (false, EvalContext.addDiag ctx ⟨DiagCode.ConstEvalHierarchicalNameInCE, []⟩)

/-- `HierarchicalValueExpression::evalImpl` (MiscExpressions.cpp, lines
249-251): return the bad value, with no diagnostic. -/
def hierEval (ctx : EvalContext) : Option ConstVal × EvalContext :=
  (none, ctx)

/-- The direction token of a `FunctionPortSyntax` (`portSyntax->direction.kind`):
one of the direction keywords, or `Unknown` when no direction was written. -/
inductive DirTok where
  | Input
  | Output
  | InOut
  | Ref
  | Unknown
  deriving DecidableEq, Repr

/-- A `FunctionPortSyntax` as `SubroutineSymbol::fromSyntax` consumes it: the
direction token, whether `const` accompanies `ref`, the optional declared data
type (a syntax-node identifier), the declarator's name, and the optional
default initializer expression. -/
structure PortSyn where
  direction : DirTok
  constKeyword : Bool
  dataType : Option Nat
  portName : String
  defInit : Option Nat
  deriving DecidableEq, Repr

/-- The type given to a built formal argument: the compilation's `logic` type,
or the type named by a data-type syntax node. -/
inductive TyRef where
  | logicTy
  | synTy (id : Nat)
  deriving DecidableEq, Repr

/-- A constructed `FormalArgumentSymbol`: name, direction, type, initializer. -/
structure FormalOut where
  formalName : String
  direction : ArgDirection
  ty : TyRef
  init : Option Nat
  deriving DecidableEq, Repr

/-- The direction `switch` of `SubroutineSymbol::fromSyntax` (MemberSymbols
.cpp, lines 254-272): maps the port's token to a direction plus the
`directionSpecified` flag; an `Unknown` token inherits `lastDirection`. -/
def portDirection (lastDir : ArgDirection) (p : PortSyn) : ArgDirection × Bool :=
  match p.direction with
  | DirTok.Input => (ArgDirection.In, true)
  | DirTok.Output => (ArgDirection.Out, true)
  | DirTok.InOut => (ArgDirection.InOut, true)
  | DirTok.Ref =>
    (if p.constKeyword then ArgDirection.ConstRef else ArgDirection.Ref, true)
  | DirTok.Unknown => (lastDir, false)

/-- The type selection of `SubroutineSymbol::fromSyntax` (MemberSymbols.cpp,
lines 278-290): a given data type is used and remembered; otherwise a
specified direction (or the absence of a remembered type) resets to `logic`
and clears the memory, and otherwise the remembered type is reused.  Returns
the formal's type and the new `lastType` state. -/
def portTy (lastType : Option Nat) (dirSpecified : Bool) (p : PortSyn) :
    TyRef × Option Nat :=
  match p.dataType with
  | some t => (TyRef.synTy t, some t)
  | none =>
    match lastType with
    | some t => if dirSpecified then (TyRef.logicTy, none) else (TyRef.synTy t, some t)
    | none => (TyRef.logicTy, none)

/-- One loop iteration's constructed formal argument. -/
def mkFormal (lastType : Option Nat) (lastDir : ArgDirection) (p : PortSyn) : FormalOut :=
  ⟨p.portName, (portDirection lastDir p).fst,
    (portTy lastType (portDirection lastDir p).snd p).fst, p.defInit⟩

/-- The port loop of `SubroutineSymbol::fromSyntax` (MemberSymbols.cpp, lines
249-298), threading the `lastType` and `lastDirection` state. -/
def buildFormals : List PortSyn → Option Nat → ArgDirection → List FormalOut
  | [], _, _ => []
  | p :: rest, lastType, lastDir =>
    mkFormal lastType lastDir p ::
      buildFormals rest (portTy lastType (portDirection lastDir p).snd p).snd
        (portDirection lastDir p).fst

/-- `SubroutineSymbol::fromSyntax` restricted to the formal-argument list: the
state starts with no remembered type and direction `In`. -/
def subroutinePortFormals (ports : List PortSyn) : List FormalOut :=
  buildFormals ports none ArgDirection.In

/-- The evolution of the `lastType` state alone, used to phrase "a previously
specified type exists" in claim C10: a declared data type is remembered, a
typeless port with a direction keyword clears the memory, and a typeless
direction-less port leaves it unchanged. -/
def typeStateStep (s : Option Nat) (p : PortSyn) : Option Nat :=
  match p.dataType with
  | some t => some t
  | none => if p.direction = DirTok.Unknown then s else none

/-- Default `PortSyn` used for out-of-range `List.getD` reads in statements. -/
def pdflt : PortSyn := ⟨DirTok.Unknown, false, none, "", none⟩

/-- Default `FormalOut` used for out-of-range `List.getD` reads in statements. -/
def fdflt : FormalOut := ⟨"", ArgDirection.In, TyRef.logicTy, none⟩

end Slang

-- ===== Theorems =====

namespace Slang

/-- C1, counterexample.  A function carrying the `MethodFlags::NotConst` flag
(and none of the conditions the claim lists) is rejected by `checkConstant`,
so the claim's "otherwise the check succeeds" is false as stated. -/
theorem checkConstant_notConst_counterexample :
    (checkConstant ⟨⟨MinTypMax.Typ, false⟩, false, 8, [], []⟩
        ⟨SubroutineKind.Function, ⟨false, false, false, false, false, true⟩, false,
          [⟨0, ArgDirection.In⟩], 1, SymbolKind.Module⟩).fst = false ∧
    ¬ claimC1FailureCondition
        ⟨SubroutineKind.Function, ⟨false, false, false, false, false, true⟩, false,
          [⟨0, ArgDirection.In⟩], 1, SymbolKind.Module⟩ := by
  decide

/-- C1, amended.  With `scriptEval` off, `checkConstant` fails exactly when
the callee is a task, a DPI import, a virtual/pure/constructor method, carries
the `NotConst` flag, has a void return type, has a formal argument whose
direction is not `in`, or is declared inside a generate block; it fails with
exactly one new diagnostic, and on success it leaves the context untouched. -/
theorem checkConstant_fails_iff (ctx : EvalContext) (s : SubroutineSymbol)
    (hs : ctx.scriptEval = false) :
    ((checkConstant ctx s).fst = false ↔ amendedC1FailureCondition s) ∧
    ((checkConstant ctx s).fst = false ↔
      (checkConstant ctx s).snd.diags.length = ctx.diags.length + 1) ∧
    ((checkConstant ctx s).fst = true → (checkConstant ctx s).snd = ctx) := by
  unfold checkConstant
  simp only [hs, Bool.false_eq_true, if_false]
  split_ifs with h1 h2 h3 h4 h5 h6 h7 <;>
    simp_all [amendedC1FailureCondition, claimC1FailureCondition, EvalContext.addDiag,
      List.any_eq_true]
  all_goals tauto

/-- C1, witness for `checkConstant_fails_iff` at a concrete task symbol. -/
theorem checkConstant_fails_iff_witness :
    ((checkConstant ⟨⟨MinTypMax.Typ, false⟩, false, 8, [], []⟩
        ⟨SubroutineKind.Task, ⟨false, false, false, false, false, false⟩, false, [], 1,
          SymbolKind.Module⟩).fst = false ↔
      amendedC1FailureCondition
        ⟨SubroutineKind.Task, ⟨false, false, false, false, false, false⟩, false, [], 1,
          SymbolKind.Module⟩) ∧
    ((checkConstant ⟨⟨MinTypMax.Typ, false⟩, false, 8, [], []⟩
        ⟨SubroutineKind.Task, ⟨false, false, false, false, false, false⟩, false, [], 1,
          SymbolKind.Module⟩).fst = false ↔
      (checkConstant ⟨⟨MinTypMax.Typ, false⟩, false, 8, [], []⟩
        ⟨SubroutineKind.Task, ⟨false, false, false, false, false, false⟩, false, [], 1,
          SymbolKind.Module⟩).snd.diags.length =
        (⟨⟨MinTypMax.Typ, false⟩, false, 8, [], []⟩ : EvalContext).diags.length + 1) ∧
    ((checkConstant ⟨⟨MinTypMax.Typ, false⟩, false, 8, [], []⟩
        ⟨SubroutineKind.Task, ⟨false, false, false, false, false, false⟩, false, [], 1,
          SymbolKind.Module⟩).fst = true →
      (checkConstant ⟨⟨MinTypMax.Typ, false⟩, false, 8, [], []⟩
        ⟨SubroutineKind.Task, ⟨false, false, false, false, false, false⟩, false, [], 1,
          SymbolKind.Module⟩).snd = ⟨⟨MinTypMax.Typ, false⟩, false, 8, [], []⟩) :=
  checkConstant_fails_iff ⟨⟨MinTypMax.Typ, false⟩, false, 8, [], []⟩
    ⟨SubroutineKind.Task, ⟨false, false, false, false, false, false⟩, false, [], 1,
      SymbolKind.Module⟩ rfl

/-- C7.  Taking the canonical type is a fixpoint operation, and every
non-alias type is its own canonical type. -/
theorem getCanonicalType_fixpoint (t : Ty) :
    Ty.getCanonicalType (Ty.getCanonicalType t) = Ty.getCanonicalType t ∧
    (Ty.isAlias t = false → Ty.getCanonicalType t = t) := by
  induction t with
  | aliasTy name target ih =>
      refine ⟨?_, ?_⟩
      · simpa [Ty.getCanonicalType] using ih.1
      · intro h
        simp [Ty.isAlias] at h
  | integral w s f => exact ⟨rfl, fun _ => rfl⟩
  | floating => exact ⟨rfl, fun _ => rfl⟩
  | stringTy => exact ⟨rfl, fun _ => rfl⟩
  | voidTy => exact ⟨rfl, fun _ => rfl⟩
  | classTy id => exact ⟨rfl, fun _ => rfl⟩
  | errorTy => exact ⟨rfl, fun _ => rfl⟩

/-- C7, witness for `getCanonicalType_fixpoint` at the floating type. -/
theorem getCanonicalType_fixpoint_witness :
    Ty.getCanonicalType (Ty.getCanonicalType Ty.floating) = Ty.getCanonicalType Ty.floating ∧
    Ty.getCanonicalType Ty.floating = Ty.floating :=
  ⟨(getCanonicalType_fixpoint Ty.floating).1, (getCanonicalType_fixpoint Ty.floating).2 rfl⟩

/-- C8.  At the failing input — an explicit import of `x` from a package `P`
that does not exist — the first access resolves, caches the null result, and
issues no diagnostic (the C++ body has `// TODO: errors` where the claim
expects one); a later access returns the same cached null without
re-resolving, even against a root in which the package has meanwhile become
available. -/
theorem importedSymbol_missing_package_no_diag :
    importedSymbolImpl ⟨[]⟩ ⟨"P", "x", false, none, none⟩ =
      (none, ⟨"P", "x", true, none, none⟩, []) ∧
    importedSymbolImpl ⟨[⟨"P", [("x", 42)]⟩]⟩ ⟨"P", "x", true, none, none⟩ =
      (none, ⟨"P", "x", true, none, none⟩, []) :=
  ⟨rfl, rfl⟩

/-- C2.  When a constant function call is evaluated (constant-ness check
passed, no `thisClass`, arguments evaluated, frame pushed) and the body's
statement evaluation produces result `er` and context `c4`, then: on `Disable`
the `ConstEvalDisableTarget` diagnostic is added to `c4` *before* the frame is
popped; the call returns the bad value exactly on `Fail`/`Disable`; and on
`Success`/`Return` it returns the contents of the return-value local. -/
theorem evalCall_result_by_body (s : SubroutineSymbol) (hasThisClass : Bool)
    (args : List (EvalContext → Option ConstVal × EvalContext))
    (body : EvalContext → EvalResult × EvalContext)
    (ctx c1 c2 c3 c4 : EvalContext) (vals : List ConstVal) (er : EvalResult)
    (hthis : hasThisClass = false)
    (hcc : checkConstant ctx s = (true, c1))
    (hargs : evalArgs args c1 = (some vals, c2))
    (hpush : EvalContext.pushFrame c2 (callFrame s vals) = some c3)
    (hbody : body c3 = (er, c4)) :
    (er = EvalResult.Disable →
      evalCallExpr s hasThisClass args body ctx =
        (none, EvalContext.popFrame
          (EvalContext.addDiag c4 ⟨DiagCode.ConstEvalDisableTarget, []⟩))) ∧
    (er = EvalResult.Fail →
      evalCallExpr s hasThisClass args body ctx = (none, EvalContext.popFrame c4)) ∧
    (er = EvalResult.Success ∨ er = EvalResult.Return →
      evalCallExpr s hasThisClass args body ctx =
        (EvalContext.findLocal c4 s.returnValVar, EvalContext.popFrame c4)) := by
  subst hthis
  refine ⟨?_, ?_, ?_⟩
  · intro h
    subst h
    simp [evalCallExpr, hcc, hargs, hpush, hbody]
  · intro h
    subst h
    simp [evalCallExpr, hcc, hargs, hpush, hbody]
  · intro h
    rcases h with h | h <;> subst h <;>
      simp [evalCallExpr, hcc, hargs, hpush, hbody]

/-- C2, witness for `evalCall_result_by_body`: a nullary function whose body
returns immediately; the call yields the default contents of the return-value
local with the frame popped again. -/
theorem evalCall_result_by_body_witness :
    evalCallExpr
        ⟨SubroutineKind.Function, ⟨false, false, false, false, false, false⟩, false, [], 7,
          SymbolKind.Module⟩
        false [] (fun c => (EvalResult.Return, c))
        ⟨⟨MinTypMax.Typ, false⟩, false, 4, [], []⟩ =
      (EvalContext.findLocal ⟨⟨MinTypMax.Typ, false⟩, false, 4, [⟨[(7, 0)]⟩], []⟩ 7,
        EvalContext.popFrame ⟨⟨MinTypMax.Typ, false⟩, false, 4, [⟨[(7, 0)]⟩], []⟩) :=
  (evalCall_result_by_body
      ⟨SubroutineKind.Function, ⟨false, false, false, false, false, false⟩, false, [], 7,
        SymbolKind.Module⟩
      false [] (fun c => (EvalResult.Return, c))
      ⟨⟨MinTypMax.Typ, false⟩, false, 4, [], []⟩
      ⟨⟨MinTypMax.Typ, false⟩, false, 4, [], []⟩
      ⟨⟨MinTypMax.Typ, false⟩, false, 4, [], []⟩
      ⟨⟨MinTypMax.Typ, false⟩, false, 4, [⟨[(7, 0)]⟩], []⟩
      ⟨⟨MinTypMax.Typ, false⟩, false, 4, [⟨[(7, 0)]⟩], []⟩
      [] EvalResult.Return rfl rfl rfl rfl rfl).2.2 (Or.inr rfl)

/-- Helper: a non-empty list's `isEmpty` is `false`. -/
theorem isEmpty_false_of_ne_nil {α : Type _} {l : List α} (h : l ≠ []) :
    l.isEmpty = false := by
  cases l with
  | nil => exact absurd rfl h
  | cons a t => rfl

/-- Helper for C4: once the named map is non-empty, a positional argument
anywhere later in the list makes `collectArgs` return the early bad result
with the mixing diagnostic appended. -/
theorem collectArgs_mixing_of_nonempty (rest : List ArgSyn) :
    ∀ (ord : List (Option Nat)) (named : List (String × Option Nat × Bool)) (ds : List Diag),
      named ≠ [] → (∃ a ∈ rest, ArgSyn.isPositional a = true) →
      ∃ ds2, collectArgs rest ord named ds =
        CollectResult.earlyBad (ds2 ++ [⟨DiagCode.MixingOrderedAndNamedArgs, []⟩]) := by
  induction rest with
  | nil =>
    intro ord named ds hne hpos
    simp at hpos
  | cons a t ih =>
    intro ord named ds hne hpos
    cases a with
    | ordered e =>
      refine ⟨ds, ?_⟩
      simp [collectArgs, isEmpty_false_of_ne_nil hne]
    | emptyArg =>
      refine ⟨ds, ?_⟩
      simp [collectArgs, isEmpty_false_of_ne_nil hne]
    | named n e =>
      have hpt : ∃ a ∈ t, ArgSyn.isPositional a = true := by
        rcases hpos with ⟨a, ha, hp⟩
        rcases List.mem_cons.mp ha with rfl | hat
        · simp [ArgSyn.isPositional] at hp
        · exact ⟨a, hat, hp⟩
      by_cases hn0 : n = ""
      · have := ih ord named ds hne hpt
        simpa [collectArgs, hn0] using this
      · by_cases hdup : (named.find? (fun p => p.fst == n)).isSome
        · have := ih ord named (ds ++ [⟨DiagCode.DuplicateArgAssignment, []⟩]) hne hpt
          simpa [collectArgs, hn0, hdup] using this
        · have := ih ord (named ++ [(n, e, false)]) ds (by simp) hpt
          simpa [collectArgs, hn0, hdup] using this

/-- Helper for C4: a named argument with a non-empty name followed (not
necessarily immediately) by a positional argument drives `collectArgs` to the
early bad result with the mixing diagnostic. -/
theorem collectArgs_mixing_of_pattern (l1 : List ArgSyn) :
    ∀ (n : String) (e : Option Nat) (l2 : List ArgSyn) (ord : List (Option Nat))
      (named : List (String × Option Nat × Bool)) (ds : List Diag),
      n ≠ "" → (∃ a ∈ l2, ArgSyn.isPositional a = true) →
      ∃ ds2, collectArgs (l1 ++ ArgSyn.named n e :: l2) ord named ds =
        CollectResult.earlyBad (ds2 ++ [⟨DiagCode.MixingOrderedAndNamedArgs, []⟩]) := by
  induction l1 with
  | nil =>
    intro n e l2 ord named ds hn hpos
    by_cases hdup : (named.find? (fun p => p.fst == n)).isSome
    · have hne : named ≠ [] := by
        intro h
        subst h
        simp [List.find?] at hdup
      have := collectArgs_mixing_of_nonempty l2 ord named
        (ds ++ [⟨DiagCode.DuplicateArgAssignment, []⟩]) hne hpos
      simpa [collectArgs, hn, hdup] using this
    · have := collectArgs_mixing_of_nonempty l2 ord (named ++ [(n, e, false)]) ds (by simp) hpos
      simpa [collectArgs, hn, hdup] using this
  | cons a t ih =>
    intro n e l2 ord named ds hn hpos
    cases a with
    | ordered e0 =>
      by_cases hne : named.isEmpty = true
      · have := ih n e l2 (ord ++ [some e0]) named ds hn hpos
        simpa [collectArgs, hne] using this
      · refine ⟨ds, ?_⟩
        simp only [Bool.not_eq_true] at hne
        simp [collectArgs, hne]
    | emptyArg =>
      by_cases hne : named.isEmpty = true
      · have := ih n e l2 (ord ++ [none]) named ds hn hpos
        simpa [collectArgs, hne] using this
      · refine ⟨ds, ?_⟩
        simp only [Bool.not_eq_true] at hne
        simp [collectArgs, hne]
    | named m f =>
      by_cases hm : m = ""
      · have := ih n e l2 ord named ds hn hpos
        simpa [collectArgs, hm] using this
      · by_cases hdup : (named.find? (fun p => p.fst == m)).isSome
        · have := ih n e l2 ord named (ds ++ [⟨DiagCode.DuplicateArgAssignment, []⟩]) hn hpos
          simpa [collectArgs, hm, hdup] using this
        · have := ih n e l2 ord (named ++ [(m, f, false)]) ds hn hpos
          simpa [collectArgs, hm, hdup] using this

/-- C3.  A function with two formal arguments and no default initializers,
called with exactly one ordered argument and no named arguments, produces the
`TooFewArguments` diagnostic carrying expected count 2 and actual count 1, and
the call expression is bad. -/
theorem fromArgs_too_few_arguments (f1 f2 : FormalSpec) (e : Nat) (exprBad : Nat → Bool)
    (_h1 : f1.defaultInit = none) (h2 : f2.defaultInit = none) :
    (fromArgs exprBad [f1, f2] (some [ArgSyn.ordered e])).diags =
      [⟨DiagCode.TooFewArguments, [2, 1]⟩] ∧
    (fromArgs exprBad [f1, f2] (some [ArgSyn.ordered e])).isBad = true := by
  unfold fromArgs
  simp [collectArgs, processFormals, lookupNamed, recordExpr, unusedNamedDiags, h2]

/-- C3, witness for `fromArgs_too_few_arguments` at `function f(a, b)` called
as `f(0)`. -/
theorem fromArgs_too_few_arguments_witness :
    (fromArgs (fun _ => false) [⟨"a", none⟩, ⟨"b", none⟩] (some [ArgSyn.ordered 0])).diags =
      [⟨DiagCode.TooFewArguments, [2, 1]⟩] ∧
    (fromArgs (fun _ => false) [⟨"a", none⟩, ⟨"b", none⟩] (some [ArgSyn.ordered 0])).isBad =
      true :=
  fromArgs_too_few_arguments ⟨"a", none⟩ ⟨"b", none⟩ 0 (fun _ => false) rfl rfl

/-- C4, counterexample.  An argument list in which an ordered argument follows
a named argument whose name token is empty (as parser error recovery produces)
is processed without any mixing diagnostic and yields a good call expression,
because the collection loop skips named arguments with empty names; the claim
as stated is therefore false for such lists. -/
theorem fromArgs_empty_named_counterexample :
    (fromArgs (fun _ => false) [⟨"a", none⟩]
        (some [ArgSyn.named "" none, ArgSyn.ordered 5])).diags = [] ∧
    (fromArgs (fun _ => false) [⟨"a", none⟩]
        (some [ArgSyn.named "" none, ArgSyn.ordered 5])).isBad = false :=
  ⟨rfl, rfl⟩

/-- C4, amended.  For every argument list in which an ordered (or empty
positional) argument appears after a named argument *with a non-empty name*,
the mixing-ordered-and-named diagnostic is emitted and the resulting call
expression is bad. -/
theorem fromArgs_mixing_named_then_positional (exprBad : Nat → Bool)
    (formals : List FormalSpec) (l1 : List ArgSyn) (n : String) (e : Option Nat)
    (l2 : List ArgSyn) (hn : n ≠ "")
    (hpos : ∃ a ∈ l2, ArgSyn.isPositional a = true) :
    ⟨DiagCode.MixingOrderedAndNamedArgs, []⟩ ∈
      (fromArgs exprBad formals (some (l1 ++ ArgSyn.named n e :: l2))).diags ∧
    (fromArgs exprBad formals (some (l1 ++ ArgSyn.named n e :: l2))).isBad = true := by
  obtain ⟨ds2, hcol⟩ := collectArgs_mixing_of_pattern l1 n e l2 [] [] [] hn hpos
  unfold fromArgs
  simp [hcol]

/-- C4, witness for `fromArgs_mixing_named_then_positional` at the call
`f(.a(), 1)`. -/
theorem fromArgs_mixing_named_then_positional_witness :
    ⟨DiagCode.MixingOrderedAndNamedArgs, []⟩ ∈
      (fromArgs (fun _ => false) []
        (some ([] ++ ArgSyn.named "a" none :: [ArgSyn.ordered 1]))).diags ∧
    (fromArgs (fun _ => false) []
        (some ([] ++ ArgSyn.named "a" none :: [ArgSyn.ordered 1]))).isBad = true :=
  fromArgs_mixing_named_then_positional (fun _ => false) [] [] "a" none [ArgSyn.ordered 1]
    (by decide) ⟨ArgSyn.ordered 1, by simp, rfl⟩

/-- C5.  A min/typ/max expression binds all three sub-expressions; each branch
is bound with the `UnevaluatedBranch` flag exactly when it is not the branch
selected by the compilation's `minTypMax` option; the selected branch is bound
with no flags and provides the expression's type; and constant evaluation of
the expression equals the evaluation of the selected branch. -/
theorem minTypMax_binds_and_selects (opts : CompilationOptions)
    (create : Nat → Bool → BoundExpr) (syn : MinTypMaxSyn) :
    (bindMinTypMax opts create syn).minExpr =
      create syn.minSyn (opts.minTypMax != MinTypMax.Min) ∧
    (bindMinTypMax opts create syn).typExpr =
      create syn.typSyn (opts.minTypMax != MinTypMax.Typ) ∧
    (bindMinTypMax opts create syn).maxExpr =
      create syn.maxSyn (opts.minTypMax != MinTypMax.Max) ∧
    (bindMinTypMax opts create syn).selected = create (selectedSyn opts syn) false ∧
    (bindMinTypMax opts create syn).ty = (create (selectedSyn opts syn) false).ty ∧
    minTypMaxEval (bindMinTypMax opts create syn) = (create (selectedSyn opts syn) false).val := by
  cases hm : opts.minTypMax <;>
    simp [bindMinTypMax, minTypMaxEval, selectedSyn, hm]

/-- C9.  The `inRecursion` guard: a call expression that re-enters its own
verification (it is in the in-recursion set) passes the pre-checks and then
returns `true` immediately, without walking the body again; consequently a
directly recursive constant function — one whose body's only call expression
is the verifying call itself — verifies to `true` in one body walk instead of
descending to the recursion depth limit. -/
theorem verifyConstant_recursion_guard {n : Nat} (P : VerifyProgram n) (e : Fin n)
    (visited : Finset (Fin n)) (hc : P.check e = true) :
    (e ∈ visited → verifyCall P visited e = true) ∧
    (P.body e = [e] → verifyCall P ∅ e = true) := by
  constructor
  · intro hmem
    rw [verifyCall]
    simp [hc, hmem]
  · intro hbody
    rw [verifyCall]
    simp only [hc, Bool.true_eq_false, if_false, Finset.not_mem_empty, dite_false]
    rw [hbody, verifyBody, verifyBody, verifyCall]
    simp [hc]

/-- C9, witness for `verifyConstant_recursion_guard`: a one-node program whose
single call expression is directly recursive. -/
theorem verifyConstant_recursion_guard_witness :
    verifyCall ⟨fun _ => true, fun _ => [0]⟩ ({0} : Finset (Fin 1)) 0 = true ∧
    verifyCall ⟨fun _ => true, fun _ => [0]⟩ (∅ : Finset (Fin 1)) 0 = true :=
  ⟨(verifyConstant_recursion_guard ⟨fun _ => true, fun _ => [0]⟩ 0 {0} rfl).1 (by decide),
   (verifyConstant_recursion_guard ⟨fun _ => true, fun _ => [0]⟩ 0 {0} rfl).2 rfl⟩

/-- Helper for C10: `directionSpecified` is exactly "the port has a direction
keyword". -/
theorem portDirection_snd (ld : ArgDirection) (p : PortSyn) :
    (portDirection ld p).snd = true ↔ p.direction ≠ DirTok.Unknown := by
  rcases p with ⟨dir, ck, dt, nm, ini⟩
  cases dir <;> simp [portDirection]

/-- Helper for C10: the `lastType` state that `buildFormals` threads is the
`typeStateStep` evolution. -/
theorem portTy_snd_eq_step (lt : Option Nat) (ld : ArgDirection) (p : PortSyn) :
    (portTy lt (portDirection ld p).snd p).snd = typeStateStep lt p := by
  rcases p with ⟨dir, ck, dt, nm, ini⟩
  cases dir <;> cases dt <;> cases lt <;>
    simp [portTy, portDirection, typeStateStep]

/-- Helper for C10: one formal argument is built per port. -/
theorem buildFormals_length (ports : List PortSyn) :
    ∀ (lt : Option Nat) (ld : ArgDirection),
      (buildFormals ports lt ld).length = ports.length := by
  induction ports with
  | nil => intro lt ld; rfl
  | cons p rest ih =>
    intro lt ld
    simp [buildFormals, ih]

/-- Helper for C10: a port with no direction keyword takes the direction of
the port before it (the threaded `lastDirection` for the first port). -/
theorem buildFormals_dir_inherit (ports : List PortSyn) :
    ∀ (lt : Option Nat) (ld : ArgDirection) (i : Nat),
      i < ports.length → (ports.getD i pdflt).direction = DirTok.Unknown →
      ((buildFormals ports lt ld).getD i fdflt).direction =
        (if i = 0 then ld else ((buildFormals ports lt ld).getD (i - 1) fdflt).direction) := by
  induction ports with
  | nil =>
    intro lt ld i h
    simp at h
  | cons p rest ih =>
    intro lt ld i hlen hdir
    cases i with
    | zero =>
      simp only [List.getD_cons_zero] at hdir
      simp [buildFormals, mkFormal, portDirection, hdir]
    | succ j =>
      simp only [List.getD_cons_succ] at hdir
      have hjl : j < rest.length := by
        simpa [Nat.succ_lt_succ_iff] using hlen
      have ihj := ih (portTy lt (portDirection ld p).snd p).snd (portDirection ld p).fst
        j hjl hdir
      cases j with
      | zero =>
        rw [if_pos rfl] at ihj
        rw [if_neg (Nat.succ_ne_zero 0)]
        simp only [buildFormals, List.getD_cons_succ, Nat.succ_sub_one, List.getD_cons_zero]
        rw [ihj]
        rfl
      | succ m =>
        rw [if_neg (Nat.succ_ne_zero m)] at ihj
        rw [if_neg (Nat.succ_ne_zero (m + 1))]
        simp only [buildFormals, List.getD_cons_succ, Nat.succ_sub_one]
        rw [ihj]
        simp

/-- Helper for C10: a typeless port whose direction is specified, or for which
no remembered type exists, gets the `logic` type. -/
theorem buildFormals_ty_logic (ports : List PortSyn) :
    ∀ (lt : Option Nat) (ld : ArgDirection) (i : Nat),
      i < ports.length → (ports.getD i pdflt).dataType = none →
      ((ports.getD i pdflt).direction ≠ DirTok.Unknown ∨
        (ports.take i).foldl typeStateStep lt = none) →
      ((buildFormals ports lt ld).getD i fdflt).ty = TyRef.logicTy := by
  induction ports with
  | nil =>
    intro lt ld i h
    simp at h
  | cons p rest ih =>
    intro lt ld i hlen hdt hcond
    cases i with
    | zero =>
      simp only [List.getD_cons_zero] at hdt hcond
      simp only [List.take_zero, List.foldl_nil] at hcond
      simp only [buildFormals, List.getD_cons_zero]
      rcases hcond with hd | hlt
      · have hspec : (portDirection ld p).snd = true := (portDirection_snd ld p).mpr hd
        cases hlt0 : lt with
        | none => simp [mkFormal, portTy, hdt]
        | some t => simp [mkFormal, portTy, hdt, hspec]
      · simp [mkFormal, portTy, hdt, hlt]
    | succ j =>
      simp only [List.getD_cons_succ] at hdt hcond
      have hjl : j < rest.length := by
        simpa [Nat.succ_lt_succ_iff] using hlen
      have hcond2 : (rest.getD j pdflt).direction ≠ DirTok.Unknown ∨
          (rest.take j).foldl typeStateStep (typeStateStep lt p) = none := by
        rcases hcond with hd | hst
        · exact Or.inl hd
        · right
          simpa [List.take_succ_cons, List.foldl_cons] using hst
      have hres := ih (portTy lt (portDirection ld p).snd p).snd (portDirection ld p).fst
        j hjl hdt (by rw [portTy_snd_eq_step]; exact hcond2)
      simp only [buildFormals, List.getD_cons_succ]
      exact hres

/-- Helper for C10: a typeless, direction-less port whose remembered type is
`t` gets the type `t`. -/
theorem buildFormals_ty_reuse (ports : List PortSyn) :
    ∀ (lt : Option Nat) (ld : ArgDirection) (i : Nat) (t : Nat),
      i < ports.length → (ports.getD i pdflt).dataType = none →
      (ports.getD i pdflt).direction = DirTok.Unknown →
      (ports.take i).foldl typeStateStep lt = some t →
      ((buildFormals ports lt ld).getD i fdflt).ty = TyRef.synTy t := by
  induction ports with
  | nil =>
    intro lt ld i t h
    simp at h
  | cons p rest ih =>
    intro lt ld i t hlen hdt hdir hst
    cases i with
    | zero =>
      simp only [List.getD_cons_zero] at hdt hdir
      simp only [List.take_zero, List.foldl_nil] at hst
      simp only [buildFormals, List.getD_cons_zero]
      simp [mkFormal, portTy, portDirection, hdt, hdir, hst]
    | succ j =>
      simp only [List.getD_cons_succ] at hdt hdir
      have hjl : j < rest.length := by
        simpa [Nat.succ_lt_succ_iff] using hlen
      have hst2 : (rest.take j).foldl typeStateStep (typeStateStep lt p) = some t := by
        simpa [List.take_succ_cons, List.foldl_cons] using hst
      have hres := ih (portTy lt (portDirection ld p).snd p).snd (portDirection ld p).fst
        j t hjl hdt hdir (by rw [portTy_snd_eq_step]; exact hst2)
      simp only [buildFormals, List.getD_cons_succ]
      exact hres

/-- Helper for C10: a port with a declared data type gets exactly that type. -/
theorem buildFormals_ty_given (ports : List PortSyn) :
    ∀ (lt : Option Nat) (ld : ArgDirection) (i : Nat) (t : Nat),
      i < ports.length → (ports.getD i pdflt).dataType = some t →
      ((buildFormals ports lt ld).getD i fdflt).ty = TyRef.synTy t := by
  induction ports with
  | nil =>
    intro lt ld i t h
    simp at h
  | cons p rest ih =>
    intro lt ld i t hlen hdt
    cases i with
    | zero =>
      simp only [List.getD_cons_zero] at hdt
      simp only [buildFormals, List.getD_cons_zero]
      simp [mkFormal, portTy, hdt]
    | succ j =>
      simp only [List.getD_cons_succ] at hdt
      have hjl : j < rest.length := by
        simpa [Nat.succ_lt_succ_iff] using hlen
      have hres := ih (portTy lt (portDirection ld p).snd p).snd (portDirection ld p).fst
        j t hjl hdt
      simp only [buildFormals, List.getD_cons_succ]
      exact hres

/-- Helper for C10: splitting the `lastType` state evolution at index `i`. -/
theorem typeState_take_succ (ports : List PortSyn) (i : Nat) (h : i < ports.length) :
    (ports.take (i + 1)).foldl typeStateStep none =
      typeStateStep ((ports.take i).foldl typeStateStep none) (ports.getD i pdflt) := by
  have h1 : ports.take (i + 1) = ports.take i ++ [ports.getD i pdflt] := by
    rw [List.getD_eq_getElem ports pdflt h]
    exact (List.take_concat_get' ports i h).symm
  rw [h1, List.foldl_append]
  rfl

/-- C10.  In a subroutine's port list: one formal is built per port; a port
with no direction keyword inherits the direction of the immediately preceding
port, the first such port defaulting to `In`; a port with no data type gets
the `logic` type when it has a direction keyword or when no remembered
declared type exists; and a typeless, direction-less port with a remembered
declared type reuses the type of the immediately preceding port. -/
theorem subroutine_port_list_defaults (ports : List PortSyn) :
    (subroutinePortFormals ports).length = ports.length ∧
    (∀ i, i < ports.length → (ports.getD i pdflt).direction = DirTok.Unknown →
      ((subroutinePortFormals ports).getD i fdflt).direction =
        (if i = 0 then ArgDirection.In
         else ((subroutinePortFormals ports).getD (i - 1) fdflt).direction)) ∧
    (∀ i, i < ports.length → (ports.getD i pdflt).dataType = none →
      ((ports.getD i pdflt).direction ≠ DirTok.Unknown ∨
        (ports.take i).foldl typeStateStep none = none) →
      ((subroutinePortFormals ports).getD i fdflt).ty = TyRef.logicTy) ∧
    (∀ i, i < ports.length → (ports.getD i pdflt).dataType = none →
      (ports.getD i pdflt).direction = DirTok.Unknown →
      (ports.take i).foldl typeStateStep none ≠ none →
      0 < i ∧
      ((subroutinePortFormals ports).getD i fdflt).ty =
        ((subroutinePortFormals ports).getD (i - 1) fdflt).ty) := by
  refine ⟨buildFormals_length ports none ArgDirection.In, ?_, ?_, ?_⟩
  · intro i hlen hdir
    exact buildFormals_dir_inherit ports none ArgDirection.In i hlen hdir
  · intro i hlen hdt hcond
    exact buildFormals_ty_logic ports none ArgDirection.In i hlen hdt hcond
  · intro i hlen hdt hdir hst
    cases i with
    | zero =>
      simp at hst
    | succ m =>
      refine ⟨Nat.succ_pos m, ?_⟩
      have hm : m < ports.length := Nat.lt_of_succ_lt hlen
      cases hsome : (ports.take (m + 1)).foldl typeStateStep none with
      | none => exact absurd hsome hst
      | some t =>
        have h1 : ((subroutinePortFormals ports).getD (m + 1) fdflt).ty = TyRef.synTy t :=
          buildFormals_ty_reuse ports none ArgDirection.In (m + 1) t hlen hdt hdir hsome
        have hsplit := typeState_take_succ ports m hm
        rw [hsplit] at hsome
        have h2 : ((subroutinePortFormals ports).getD m fdflt).ty = TyRef.synTy t := by
          cases hdm : (ports.getD m pdflt).dataType with
          | some t0 =>
            have ht0 : t0 = t := by
              simp only [typeStateStep, hdm] at hsome
              exact Option.some.inj hsome
            subst ht0
            exact buildFormals_ty_given ports none ArgDirection.In m t0 hm hdm
          | none =>
            by_cases hdm2 : (ports.getD m pdflt).direction = DirTok.Unknown
            · have hstate : (ports.take m).foldl typeStateStep none = some t := by
                simp only [typeStateStep, hdm] at hsome
                rw [hdm2, if_pos rfl] at hsome
                exact hsome
              exact buildFormals_ty_reuse ports none ArgDirection.In m t hm hdm hdm2 hstate
            · exfalso
              simp only [typeStateStep, hdm] at hsome
              rw [if_neg hdm2] at hsome
              exact Option.noConfusion hsome
        rw [Nat.succ_sub_one, h1, h2]

/-- C10, witness for `subroutine_port_list_defaults` at the port list
`(input int a, b)`: the second port inherits direction `In` and reuses the
first port's type. -/
theorem subroutine_port_list_defaults_witness :
    (subroutinePortFormals
        [⟨DirTok.Input, false, some 3, "a", none⟩,
         ⟨DirTok.Unknown, false, none, "b", none⟩]).length = 2 ∧
    ((subroutinePortFormals
        [⟨DirTok.Input, false, some 3, "a", none⟩,
         ⟨DirTok.Unknown, false, none, "b", none⟩]).getD 1 fdflt).direction =
      (if 1 = 0 then ArgDirection.In
       else ((subroutinePortFormals
          [⟨DirTok.Input, false, some 3, "a", none⟩,
           ⟨DirTok.Unknown, false, none, "b", none⟩]).getD 0 fdflt).direction) ∧
    (0 < 1 ∧
      ((subroutinePortFormals
          [⟨DirTok.Input, false, some 3, "a", none⟩,
           ⟨DirTok.Unknown, false, none, "b", none⟩]).getD 1 fdflt).ty =
        ((subroutinePortFormals
            [⟨DirTok.Input, false, some 3, "a", none⟩,
             ⟨DirTok.Unknown, false, none, "b", none⟩]).getD 0 fdflt).ty) :=
  ⟨(subroutine_port_list_defaults
      [⟨DirTok.Input, false, some 3, "a", none⟩,
       ⟨DirTok.Unknown, false, none, "b", none⟩]).1,
   (subroutine_port_list_defaults
      [⟨DirTok.Input, false, some 3, "a", none⟩,
       ⟨DirTok.Unknown, false, none, "b", none⟩]).2.1 1 (by decide) rfl,
   (subroutine_port_list_defaults
      [⟨DirTok.Input, false, some 3, "a", none⟩,
       ⟨DirTok.Unknown, false, none, "b", none⟩]).2.2.2 1 (by decide) rfl rfl (by decide)⟩

/-- C6, counterexample.  With `allowHierarchicalConst` set in the compilation
options, verifying a hierarchical value expression in a constant context still
fails with the hierarchical-name diagnostic: the option does not suppress the
error, contrary to the claim. -/
theorem hierConst_option_counterexample :
    (hierVerifyConstant ⟨⟨MinTypMax.Typ, true⟩, false, 4, [], []⟩).fst = false ∧
    (hierVerifyConstant ⟨⟨MinTypMax.Typ, true⟩, false, 4, [], []⟩).snd.diags =
      [(⟨DiagCode.ConstEvalHierarchicalNameInCE, []⟩, 0)] := by
  decide

/-- C6, amended.  The `allowHierarchicalConst` option is never consulted:
verifying a hierarchical value expression in a constant context issues the
hierarchical-name diagnostic and fails whatever the option's value, and
evaluating one yields the bad value (with no diagnostic of its own). -/
theorem hierConst_independent_of_option (ctx : EvalContext) (b : Bool) :
    (hierVerifyConstant
        { ctx with options := { ctx.options with allowHierarchicalConst := b } }).fst = false ∧
    (hierVerifyConstant
        { ctx with options := { ctx.options with allowHierarchicalConst := b } }).snd.diags =
      ctx.diags ++ [(⟨DiagCode.ConstEvalHierarchicalNameInCE, []⟩, ctx.frames.length)] ∧
    hierEval ctx = (none, ctx) := by
  simp [hierVerifyConstant, hierEval, EvalContext.addDiag]

end Slang
